import Mathlib

/-!
Verification development for the niura-backend services.

The definitions below are a shallow embedding of the Python sources:

* `src/gateway/app/core/security.py` (JWT creation and verification),
* `src/gateway/app/events/kafka_consumer.py` (metric display labels),
* `src/eeg-service/app/services/eeg_service.py` and
  `src/eeg-service/app/services/fft_eeg_service.py` (signal kernels),
* `src/core-service/app/routes/eeg_controller.py` (`track_session`,
  `get_session_details`),
* `src/core-service/app/services/eeg_service.py` (`get_best_focus_time`),
* `src/core-service/app/services/eeg_aggregation_service.py`
  (daily and monthly aggregation).

Numeric values that are Python floats in the sources are modelled as exact
rationals; machine timestamps are modelled as integer seconds plus
microseconds.  Database tables are modelled as lists of rows, and SQL
queries as list filters.
-/

/-! ### Shared numeric helpers -/

/-- Python `int(x)` applied to a numeric value: truncation toward zero. -/
def pyInt (q : Rat) : Int := if 0 ≤ q then ⌊q⌋ else -⌊-q⌋

/-- Rounding to the nearest integer, ties to the even integer.  This is the
rounding mode of Python's built-in `round`. -/
def roundHalfToEven (q : Rat) : Int :=
  let n := ⌊q⌋
  let frac := q - n
  if frac < 1/2 then n
  else if 1/2 < frac then n + 1
  else if n % 2 = 0 then n else n + 1

/-- Python `round(x, 2)` over exact rationals. -/
def pyRound2 (q : Rat) : Rat := (roundHalfToEven (q * 100) : Rat) / 100

/-- Python `round(x, 3)` over exact rationals. -/
def pyRound3 (q : Rat) : Rat := (roundHalfToEven (q * 1000) : Rat) / 1000

/-- Arithmetic mean of a list of values, `0` for the empty list.  This is the
`sum(xs)/len(xs) if xs else 0` idiom used throughout the sources. -/
def avgOrZero (l : List Rat) : Rat := if l = [] then 0 else l.sum / l.length

/-- Arithmetic mean (used where the sources guarantee a non-empty list, such
as SQL `AVG` over a non-empty group). -/
def qAvg (l : List Rat) : Rat := l.sum / l.length

/-! ### Gateway JWT security (`src/gateway/app/core/security.py`)

python-jose `jwt.encode`/`jwt.decode` with an HMAC key are modelled
symbolically: a signature is the pair of the signing key and the signed
claims, so a signature verifies exactly when it was produced with the same
key over the same claims. -/

/-- The configured JWT environment (`JWT_SECRET_KEY`, `JWT_ISSUER`,
`JWT_AUDIENCE` from `app/core/config.py`). -/
structure JWTConfig where
  secret : String
  issuer : String
  audience : String
deriving DecidableEq, Repr

/-- The registered claims produced by `create_access_token` (plus `sub` from
its `data` argument).  Times are integer Unix seconds. -/
structure JWTClaims where
  iss : String
  aud : String
  sub : String
  iat : Int
  nbf : Int
  exp : Int
deriving DecidableEq, Repr

/-- Symbolic HMAC-SHA256 signature over a claim set. -/
def jwtSign (secret : String) (c : JWTClaims) : String × JWTClaims := (secret, c)

/-- An encoded token: its payload together with its signature. -/
structure JWTToken where
  claims : JWTClaims
  sig : String × JWTClaims
deriving DecidableEq, Repr

/-- A token signed with the configured secret (what `jwt.encode` returns). -/
def signedToken (cfg : JWTConfig) (c : JWTClaims) : JWTToken :=
  { claims := c, sig := jwtSign cfg.secret c }

/-- `create_access_token(data={"sub": sub}, expires_delta)` called at time
`now`: issues iss/aud from the configuration, `iat = now`,
`nbf = now - 30` (30 seconds of clock skew applied at creation time) and
`exp = now + expiresDelta`. -/
def create_access_token (cfg : JWTConfig) (now : Int) (sub : String)
    (expiresDelta : Int) : JWTToken :=
  signedToken cfg
    { iss := cfg.issuer
      aud := cfg.audience
      sub := sub
      iat := now
      nbf := now - 30
      exp := now + expiresDelta }

/-- Result of `verify_access_token`: the payload on success, the string
`"EXPIRED"` on `ExpiredSignatureError`, `None` on any other `JWTError`. -/
inductive VerifyResult where
  | ok (payload : JWTClaims)
  | expired
  | invalid
deriving DecidableEq, Repr

/-- Whether `get_current_user_payload` answers 401 for this result. -/
def isRejected : VerifyResult → Bool
  | .ok _ => false
  | .expired => true
  | .invalid => true

/-- `verify_access_token(token)` evaluated at time `now`.

python-jose `jwt.decode(token, JWT_SECRET_KEY, algorithms=[ALGORITHM],
audience=JWT_AUDIENCE, options={"verify_aud": True, "verify_nbf": False})`:
the signature is checked first, then `exp` (strictly expired when
`exp < now`, raising `ExpiredSignatureError`), then `aud` against the
configured audience.  No `issuer=` argument is passed, so the `iss` claim is
never validated, and `verify_nbf` is explicitly disabled, so `nbf` is never
validated.  Finally the wrapper returns `None` when the payload has no
truthy `sub`. -/
def verify_access_token (cfg : JWTConfig) (tok : JWTToken) (now : Int) :
    VerifyResult :=
  if tok.sig ≠ jwtSign cfg.secret tok.claims then .invalid
  else if tok.claims.exp < now then .expired
  else if tok.claims.aud ≠ cfg.audience then .invalid
  else if tok.claims.sub = "" then .invalid
  else .ok tok.claims

/-! ### Gateway fan-out labels (`src/gateway/app/events/kafka_consumer.py`) -/

/-- One record of a `ProcessedBatch` on the `eeg.processed.data` topic. -/
structure ProcessedMetricRecord where
  timestamp : Option Int
  focus_label : Option Rat
  stress_label : Option Rat
  wellness_label : Option Rat
deriving DecidableEq, Repr

/-- `_get_label(value, metric_type)` from the gateway consumer. -/
def get_label (value : Option Rat) (metricType : String) : String :=
  match value with
  | none => "Unknown"
  | some v =>
    if metricType = "focus" then
      if v ≥ 5/2 then "High" else if v ≥ 3/2 then "Medium" else "Low"
    else if metricType = "stress" then
      if v ≥ 5/2 then "High" else if v ≥ 3/2 then "Medium" else "Low"
    else
      if v ≥ 70 then "Good" else if v ≥ 40 then "Fair" else "Poor"

/-- A `value`/`label` pair inside the `PROCESSED_METRICS` message. -/
structure MetricField where
  value : Option Rat
  label : String
deriving DecidableEq, Repr

/-- The `PROCESSED_METRICS` WebSocket message built by `broadcast_metrics`. -/
structure MetricsMessage where
  type : String
  user_id : String
  timestamp : Option Int
  focus : MetricField
  stress : MetricField
  wellness : MetricField
deriving DecidableEq, Repr

/-- `broadcast_metrics(data)`: skips the broadcast (returns nothing) when the
user id or the record list is empty, otherwise builds the message from the
last record of the batch. -/
def broadcast_metrics (user_id : String) (records : List ProcessedMetricRecord) :
    Option MetricsMessage :=
  if user_id = "" ∨ records = [] then none
  else
    match records.getLast? with
    | none => none
    | some latest =>
      some
        { type := "PROCESSED_METRICS"
          user_id := user_id
          timestamp := latest.timestamp
          focus := { value := latest.focus_label
                     label := get_label latest.focus_label "focus" }
          stress := { value := latest.stress_label
                      label := get_label latest.stress_label "stress" }
          wellness := { value := latest.wellness_label
                        label := get_label latest.wellness_label "wellness" } }

/-- Modelled from the spec: the display thresholds for focus and stress
(`High ≥ 2.5, Medium ≥ 1.5, else Low`), written directly from the spec's
words for comparison with the gateway code. -/
def specFocusStressLabel (v : Rat) : String :=
  if v ≥ 5/2 then "High" else if v ≥ 3/2 then "Medium" else "Low"

/-- Modelled from the spec: the display thresholds for wellness
(`Good ≥ 70, Fair ≥ 40, else Poor`). -/
def specWellnessLabel (v : Rat) : String :=
  if v ≥ 70 then "Good" else if v ≥ 40 then "Fair" else "Poor"

/-! ### Signal kernels (`src/eeg-service/app/services/...`)

The numeric cores (BrainFlow filters and classifier for Kernel-A, the
scipy FFT pipeline for Kernel-B) are floating-point library calls; their
outcome is passed in as a value so that the exception-handling control flow
around them can be embedded exactly. -/

/-- Outcome of an unembeddable numeric library computation: either a value
or a raised exception. -/
inductive NumericOutcome (α : Type) where
  | ok (val : α)
  | exn
deriving DecidableEq, Repr

/-- Kernel-A `EEGService.compute_metrics`: `featureStep` is the `try` block
computing the average band powers and the classifier concentration.  On an
exception the code sets `conc = 0.0` and `avg_bp = [0, 0, 0, 0, 0]` and
continues; afterwards `relax = 1 - conc`, `stress = beta/(alpha+beta)` with
a zero guard, `wellness = conc`, everything rounded to 3 decimals.
Returns `(concentration, relaxation, stress, wellness)`. -/
def compute_metrics (featureStep : NumericOutcome (List Rat × Rat)) :
    Rat × Rat × Rat × Rat :=
  let conc : Rat := match featureStep with
    | .ok v => v.2
    | .exn => 0
  let avg_bp : List Rat := match featureStep with
    | .ok v => v.1
    | .exn => [0, 0, 0, 0, 0]
  let relax := 1 - conc
  let alpha := avg_bp.getD 2 0
  let beta := avg_bp.getD 3 0
  let stress := if alpha + beta > 0 then beta / (alpha + beta) else 0
  let wellness := conc
  (pyRound3 conc, pyRound3 relax, pyRound3 stress, pyRound3 wellness)

/-- One output record of the FFT pipeline (fields irrelevant to the failure
mode are omitted). -/
structure FFTProcessedRecord where
  timestamp : Int
  focus_label : Rat
  stress_label : Rat
  wellness_label : Rat
deriving DecidableEq, Repr

/-- Kernel-B `FFTEEGService.process_eeg_records`: the whole body is wrapped
in `try ... except Exception: logger.error(...); raise` — a numeric
exception inside the pipeline is logged and RE-RAISED, so the batch fails
instead of producing neutral outputs. -/
def process_eeg_records (pipelineStep : NumericOutcome (List FFTProcessedRecord)) :
    Except Unit (List FFTProcessedRecord) :=
  match pipelineStep with
  | .ok rs => Except.ok rs
  | .exn => Except.error ()

/-! ### Core-service session tracking (`src/core-service/app/routes/eeg_controller.py`)

`eeg_records.timestamp` is a SQL `timestamp without time zone`, modelled as
whole seconds since the epoch plus a microsecond part.  All request
datetimes are already normalised to UTC-naive by `to_utc_naive`. -/

/-- A naive datetime: whole seconds since the epoch plus microseconds. -/
structure Timestamp where
  sec : Int
  micro : Nat
deriving DecidableEq, Repr

/-- Datetime order, lexicographic on the second and microsecond parts. -/
def Timestamp.leP (a b : Timestamp) : Prop :=
  a.sec < b.sec ∨ (a.sec = b.sec ∧ a.micro ≤ b.micro)

instance (a b : Timestamp) : Decidable (Timestamp.leP a b) :=
  inferInstanceAs (Decidable (_ ∨ _))

/-- Boolean datetime comparison used in SQL filters. -/
def Timestamp.leB (a b : Timestamp) : Bool := decide (Timestamp.leP a b)

/-- A row of the `eeg_records` table. -/
structure EEGRecordRow where
  id : Int
  user_id : Int
  timestamp : Timestamp
  focus_label : Option Rat
  stress_label : Option Rat
  wellness_label : Option Rat
deriving DecidableEq, Repr

/-- Row order by `timestamp` ascending (`ORDER BY timestamp ASC`). -/
def EEGRecordRow.tsLeP (a b : EEGRecordRow) : Prop :=
  Timestamp.leP a.timestamp b.timestamp

instance (a b : EEGRecordRow) : Decidable (EEGRecordRow.tsLeP a b) :=
  inferInstanceAs (Decidable (Timestamp.leP _ _))

/-- One element of `session_data.timestamps` (schema `SessionTimestamp`):
a start instant and an optional end instant.  The source field is named
`end`, a reserved word here. -/
structure SessionInterval where
  start : Timestamp
  stop : Option Timestamp
deriving DecidableEq, Repr

/-- The body of `POST sessions/track` (schema `SessionTrackingData`).  The
`duration` field accepts numbers (strings are parsed by
`parse_duration_to_seconds`; only the numeric form is modelled). -/
structure SessionTrackingData where
  label : String
  duration : Option Rat
  timestamps : List SessionInterval
deriving DecidableEq, Repr

/-- A row of the `sessions` table as written by `track_session`:
`duration` is stored in seconds. -/
structure SessionRow where
  user_id : Int
  date : Timestamp
  duration : Int
  label : String
  focus : Rat
  stress : Rat
  wellness : Rat
deriving DecidableEq, Repr

/-- The per-interval record query of `track_session` step 2: for each
interval with an end, the `eeg_records` rows of the user with
`start <= timestamp <= end`, ordered by timestamp ascending; the interval
results are concatenated (`all_eeg_records.extend`). -/
def collectSessionRecords (db : List EEGRecordRow) (uid : Int)
    (ivs : List SessionInterval) : List EEGRecordRow :=
  ivs.flatMap fun iv =>
    match iv.stop with
    | none => []
    | some e =>
      List.insertionSort EEGRecordRow.tsLeP
        (db.filter fun r =>
          decide (r.user_id = uid) && Timestamp.leB iv.start r.timestamp &&
            Timestamp.leB r.timestamp e)

/-- The distinct keys of the `seconds_data` dict: timestamps truncated to
the second (`rec.timestamp.replace(microsecond=0)`). -/
def secondKeys (records : List EEGRecordRow) : List Int :=
  (records.map fun r => r.timestamp.sec).dedup

/-- The `focus_values` list of the bucket for second `k`: the non-`None`
focus labels of the collected records falling in that second, in collection
order. -/
def bucketFocus (records : List EEGRecordRow) (k : Int) : List Rat :=
  (records.filter fun r => decide (r.timestamp.sec = k)).filterMap
    (fun r => r.focus_label)

/-- The `stress_values` list of the bucket for second `k`. -/
def bucketStress (records : List EEGRecordRow) (k : Int) : List Rat :=
  (records.filter fun r => decide (r.timestamp.sec = k)).filterMap
    (fun r => r.stress_label)

/-- The `wellness_values` list of the bucket for second `k`. -/
def bucketWellness (records : List EEGRecordRow) (k : Int) : List Rat :=
  (records.filter fun r => decide (r.timestamp.sec = k)).filterMap
    (fun r => r.wellness_label)

/-- The second-keys of `seconds_data` in ascending order
(`sorted(seconds_data_dict.keys())`). -/
def sortedSecondKeys (records : List EEGRecordRow) : List Int :=
  List.insertionSort (· ≤ ·) (secondKeys records)

/-- The key slice of ten-bucket number `i` (of `aggregate_for_frontend_graph`
for more than ten seconds): `sorted_keys[int(i*N/10) : int((i+1)*N/10)]`,
with the last bucket extended to the end. -/
def bucketKeySlice (sortedKeys : List Int) (i : Nat) : List Int :=
  let total := sortedKeys.length
  let s := i * total / 10
  let e := if i < 9 then (i + 1) * total / 10 else total
  (sortedKeys.drop s).take (e - s)

/-- The representative timestamp of ten-bucket `i`: the middle key of the
slice (`bucket_timestamps[len(bucket_timestamps)//2]`, falling back to
`sorted_keys[start_idx]`). -/
def bucketMidKey (sortedKeys : List Int) (i : Nat) : Int :=
  let ks := bucketKeySlice sortedKeys i
  ks.getD (ks.length / 2) (sortedKeys.getD (i * sortedKeys.length / 10) 0)

/-- The four lists returned by `aggregate_for_frontend_graph`: per-second
averages with the real second timestamps when there are at most 10 distinct
seconds, otherwise exactly ten bucket averages with bucket-middle
timestamps. -/
def frontendGraphData (records : List EEGRecordRow) :
    List Rat × List Rat × List Rat × List Int :=
  let keys := sortedSecondKeys records
  if keys.length ≤ 10 then
    (keys.map fun k => avgOrZero (bucketFocus records k),
     keys.map fun k => avgOrZero (bucketStress records k),
     keys.map fun k => avgOrZero (bucketWellness records k),
     keys)
  else
    ((List.range 10).map fun i =>
        avgOrZero ((bucketKeySlice keys i).flatMap (bucketFocus records)),
     (List.range 10).map fun i =>
        avgOrZero ((bucketKeySlice keys i).flatMap (bucketStress records)),
     (List.range 10).map fun i =>
        avgOrZero ((bucketKeySlice keys i).flatMap (bucketWellness records)),
     (List.range 10).map fun i => bucketMidKey keys i)

/-- `all_focus_raw`: every raw focus sample, collected bucket by bucket over
the sorted second keys. -/
def allFocusRaw (records : List EEGRecordRow) : List Rat :=
  (sortedSecondKeys records).flatMap (bucketFocus records)

/-- `all_stress_raw`. -/
def allStressRaw (records : List EEGRecordRow) : List Rat :=
  (sortedSecondKeys records).flatMap (bucketStress records)

/-- `all_wellness_raw`. -/
def allWellnessRaw (records : List EEGRecordRow) : List Rat :=
  (sortedSecondKeys records).flatMap (bucketWellness records)

/-- The JSON answer of `track_session` together with the persisted
`sessions` row. -/
structure TrackSessionResponse where
  session : SessionRow
  duration_seconds : Int
  duration_source : String
  avg_focus : Rat
  avg_stress : Rat
  avg_wellness : Rat
  eeg_records_count : Nat
  aggregated_data_points : Nat
  was_aggregated : Bool
  focus_data : List Rat
  stress_data : List Rat
  wellness_data : List Rat
  timestamps : List Int
deriving Repr

/-- `POST sessions/track` (`track_session`): duration from the user input
when given (truncated to whole seconds) else the summed interval lengths;
records collected per interval; per-second bucketing; ten-point-or-raw
graph data; overall unweighted averages over the raw samples; the session
is persisted with those averages and the duration in seconds. -/
def track_session (db : List EEGRecordRow) (uid : Int)
    (sd : SessionTrackingData) (now : Timestamp) : TrackSessionResponse :=
  let userDuration : Option Int := sd.duration.map pyInt
  let totalDuration : Int :=
    match userDuration with
    | some d => d
    | none =>
      pyInt ((sd.timestamps.filterMap fun iv =>
        iv.stop.map fun e =>
          ((e.sec - iv.start.sec : Int) : Rat) +
            (((e.micro : Int) - (iv.start.micro : Int) : Int) : Rat) / 1000000).sum)
  let records := collectSessionRecords db uid sd.timestamps
  let graph := frontendGraphData records
  let avgF := avgOrZero (allFocusRaw records)
  let avgS := avgOrZero (allStressRaw records)
  let avgW := avgOrZero (allWellnessRaw records)
  { session :=
      { user_id := uid
        date := now
        duration := totalDuration
        label := sd.label
        focus := avgF
        stress := avgS
        wellness := avgW }
    duration_seconds := totalDuration
    duration_source :=
      if userDuration.isSome then "user_provided"
      else "calculated_from_timestamps"
    avg_focus := avgF
    avg_stress := avgS
    avg_wellness := avgW
    eeg_records_count := records.length
    aggregated_data_points := graph.1.length
    was_aggregated := decide ((secondKeys records).length > 10)
    focus_data := graph.1
    stress_data := graph.2.1
    wellness_data := graph.2.2.1
    timestamps := graph.2.2.2 }

/-! ### Core-service session details (`get_session_details`) -/

/-- Datetime plus `timedelta(minutes=m)`. -/
def addMinutes (t : Timestamp) (m : Int) : Timestamp :=
  { sec := t.sec + 60 * m, micro := t.micro }

/-- Datetime plus `timedelta(seconds=s)`. -/
def addSeconds (t : Timestamp) (s : Int) : Timestamp :=
  { sec := t.sec + s, micro := t.micro }

/-- The answer of `GET sessions/{id}/details`. -/
structure SessionDetailsResponse where
  label : String
  duration : Int
  avg_focus : Rat
  avg_stress : Rat
  avg_wellness : Rat
  focus_data : List Rat
  stress_data : List Rat
  wellness_data : List Rat
  timestamps : List Timestamp
  eeg_records_count : Nat
  aggregated_data_points : Nat
  was_aggregated : Bool
deriving Repr

/-- The record window of `get_session_details`: `session_start = session.date`
and `session_end = session.date + timedelta(minutes=session.duration)` — the
stored `duration` (which `track_session` wrote in seconds) is interpreted as
MINUTES here. -/
def sessionDetailsWindow (sess : SessionRow) : Timestamp × Timestamp :=
  (sess.date, addMinutes sess.date sess.duration)

/-- The `eeg_records` query of `get_session_details`: the user's records with
`session_start <= timestamp <= session_end`, ordered by timestamp. -/
def sessionDetailsRecords (db : List EEGRecordRow) (uid : Int)
    (sess : SessionRow) : List EEGRecordRow :=
  List.insertionSort EEGRecordRow.tsLeP
    (db.filter fun r =>
      decide (r.user_id = uid) &&
        Timestamp.leB (sessionDetailsWindow sess).1 r.timestamp &&
        Timestamp.leB r.timestamp (sessionDetailsWindow sess).2)

/-- The record slice of detail ten-bucket `i`:
`eeg_records_list[int(i*N/10) : int((i+1)*N/10)]` with the last bucket
extended to the end. -/
def detailBucketSlice (records : List EEGRecordRow) (i : Nat) : List EEGRecordRow :=
  let total := records.length
  let s := i * total / 10
  let e := if i < 9 then (i + 1) * total / 10 else total
  (records.drop s).take (e - s)

/-- The representative timestamp of detail ten-bucket `i` (the middle
record's timestamp, falling back to the first record of the slice). -/
def detailBucketMidTs (records : List EEGRecordRow) (i : Nat) : Timestamp :=
  let slice := detailBucketSlice records i
  ((slice.getD (slice.length / 2)
      (records.getD (i * records.length / 10) ⟨0, 0, ⟨0, 0⟩, none, none, none⟩)).timestamp)

/-- `aggregate_eeg_for_frontend_graph` of `get_session_details`: at most ten
records are returned one data point per record (skipping `None` labels, with
every record's timestamp); more than ten records are folded into exactly ten
index buckets. -/
def detailGraphData (records : List EEGRecordRow) :
    List Rat × List Rat × List Rat × List Timestamp :=
  if records.length ≤ 10 then
    (records.filterMap (fun r => r.focus_label),
     records.filterMap (fun r => r.stress_label),
     records.filterMap (fun r => r.wellness_label),
     records.map (fun r => r.timestamp))
  else
    ((List.range 10).map fun i =>
        avgOrZero ((detailBucketSlice records i).filterMap (fun r => r.focus_label)),
     (List.range 10).map fun i =>
        avgOrZero ((detailBucketSlice records i).filterMap (fun r => r.stress_label)),
     (List.range 10).map fun i =>
        avgOrZero ((detailBucketSlice records i).filterMap (fun r => r.wellness_label)),
     (List.range 10).map fun i => detailBucketMidTs records i)

/-- `GET sessions/{id}/details` (`get_session_details`) for a found session:
selects the records of `[session.date, session.date + duration(minutes)]`,
applies the ten-point-or-raw policy to them, and echoes the stored session
averages. -/
def get_session_details (db : List EEGRecordRow) (uid : Int)
    (sess : SessionRow) : SessionDetailsResponse :=
  let records := sessionDetailsRecords db uid sess
  let graph := detailGraphData records
  { label := sess.label
    duration := sess.duration
    avg_focus := sess.focus
    avg_stress := sess.stress
    avg_wellness := sess.wellness
    focus_data := graph.1
    stress_data := graph.2.1
    wellness_data := graph.2.2.1
    timestamps := graph.2.2.2
    eeg_records_count := records.length
    aggregated_data_points := graph.1.length
    was_aggregated := decide (records.length > 10) }

/-! ### Core-service best focus time (`src/core-service/app/services/eeg_service.py`) -/

/-- A coalesced range of consecutive above-average hours (the dicts built in
the `while` loop of `get_best_focus_time`): first hour, last hour, sum and
count of the member hourly means. -/
structure FocusRange where
  startH : Int
  stopH : Int
  focusSum : Rat
  count : Nat
deriving DecidableEq, Repr

/-- The inner loop coalescing consecutive hours, carrying the range under
construction. -/
def coalesceHoursAux (startH stopH : Int) (sum : Rat) (count : Nat) :
    List (Int × Rat) → List FocusRange
  | [] => [⟨startH, stopH, sum, count⟩]
  | (h, f) :: rest =>
    if h = stopH + 1 then coalesceHoursAux startH h (sum + f) (count + 1) rest
    else ⟨startH, stopH, sum, count⟩ :: coalesceHoursAux h h f 1 rest

/-- Coalescing the `good_hours` list (hour-ascending) into maximal runs of
consecutive hours. -/
def coalesceHours : List (Int × Rat) → List FocusRange
  | [] => []
  | (h, f) :: rest => coalesceHoursAux h h f 1 rest

/-- The mean focus of a range (`range_focus_sum / count`). -/
def FocusRange.avg (r : FocusRange) : Rat := r.focusSum / r.count

/-- Python `max(ranges, key=lambda x: (x["avg_focus"], x["duration"]))`:
keeps the first maximum under the lexicographic key. -/
def bestRange (first : FocusRange) (rest : List FocusRange) : FocusRange :=
  rest.foldl
    (fun b r =>
      if b.avg < r.avg ∨ (b.avg = r.avg ∧ b.count < r.count) then r else b)
    first

/-- `datetime.strptime(str(h), "%H").strftime("%I:%M %p")`: fails (raises
`ValueError`) unless `0 <= h <= 23`, otherwise formats the hour in 12-hour
clock with minute `00`. -/
def strptimeHour12 (h : Int) : Except Unit String :=
  if h < 0 ∨ 23 < h then Except.error ()
  else
    let hn := (h % 12).toNat
    let h12 : Nat := if hn = 0 then 12 else hn
    let pad := if h12 < 10 then "0" ++ toString h12 else toString h12
    let suffix := if h < 12 then " AM" else " PM"
    Except.ok (pad ++ ":00" ++ suffix)

/-- Result of `get_best_focus_time`: the `None`-answer, a formatted range
with its rounded mean, or a raised `ValueError`. -/
inductive BestFocusResult where
  | empty
  | ok (range : String) (avg : Rat)
  | valueError
deriving DecidableEq, Repr

/-- `get_best_focus_time(user_id)` as a function of its two query results:
`daily` are the user's `daily_eeg_records.focus` values of the trailing 30
days, `hourly` the `(hour, AVG(focus_label))` pairs over the user's
`eeg_records` of the trailing 30 days, hour-ascending.  Hours strictly above
the overall hourly mean are kept, coalesced into consecutive runs, the best
run is formatted as `"HH:MM AM/PM to HH:MM AM/PM"` — the end hour being
formatted from `best_range["end"] + 1`. -/
def get_best_focus_time (daily : List Rat) (hourly : List (Int × Rat)) :
    BestFocusResult :=
  if daily = [] then .empty
  else if hourly = [] then .empty
  else
    let overall := qAvg (hourly.map (fun p => p.2))
    let good := hourly.filter fun p => decide (overall < p.2)
    match coalesceHours good with
    | [] => .empty
    | r :: rs =>
      let best := bestRange r rs
      match strptimeHour12 best.startH, strptimeHour12 (best.stopH + 1) with
      | Except.ok s, Except.ok e => .ok (s ++ " to " ++ e) (pyRound2 best.avg)
      | _, _ => .valueError

/-! ### Aggregation engine (`src/core-service/app/services/eeg_aggregation_service.py`)

The aggregation queries only ever look at the calendar part of
`eeg_records.timestamp` (`func.date(...)`) and at the year/month of
`daily_eeg_records.date` (`func.extract`), so this model carries the
calendar date of a timestamp explicitly. -/

/-- A calendar date. -/
structure CalDate where
  year : Int
  month : Int
  day : Int
deriving DecidableEq, Repr

/-- Strict date order. -/
def CalDate.lt (a b : CalDate) : Prop :=
  a.year < b.year ∨
    (a.year = b.year ∧ (a.month < b.month ∨ (a.month = b.month ∧ a.day < b.day)))

instance (a b : CalDate) : Decidable (CalDate.lt a b) :=
  inferInstanceAs (Decidable (_ ∨ _))

/-- A `timestamp without time zone` as seen by the aggregation service: its
calendar date (`func.date`, `datetime.date()`) plus the time of day in
seconds.  Metric columns are taken non-NULL, as written by the processing
pipeline. -/
structure AggTimestamp where
  date : CalDate
  timeOfDay : Nat
deriving DecidableEq, Repr

/-- A row of `eeg_records` as read by the aggregation service. -/
structure AggEEGRow where
  id : Int
  user_id : Int
  timestamp : AggTimestamp
  focus_label : Rat
  stress_label : Rat
  wellness_label : Rat
deriving DecidableEq, Repr

/-- A row of `daily_eeg_records`. -/
structure DailyRow where
  user_id : Int
  date : CalDate
  focus : Rat
  stress : Rat
  wellness : Rat
deriving DecidableEq, Repr

/-- A row of `monthly_eeg_records`. -/
structure MonthlyRow where
  user_id : Int
  year : Int
  month : Int
  focus : Rat
  stress : Rat
  wellness : Rat
deriving DecidableEq, Repr

/-- A row of `eeg_records_backup`: a copy of an `eeg_records` row with the
timestamp narrowed to date precision (`record.timestamp.date()`) and the
date of the backup run. -/
structure BackupRow where
  original_id : Int
  user_id : Int
  timestamp : CalDate
  focus_label : Rat
  stress_label : Rat
  wellness_label : Rat
  backup_date : CalDate
deriving DecidableEq, Repr

/-- The relational store of the aggregation service. -/
structure CoreDB where
  eeg : List AggEEGRow
  daily : List DailyRow
  monthly : List MonthlyRow
  backup : List BackupRow
deriving Repr

/-- `func.date(EEGRecord.timestamp) == target_date` as a row predicate. -/
def onDate (d : CalDate) (r : AggEEGRow) : Bool := decide (r.timestamp.date = d)

/-- `extract(year) == year AND extract(month) == month` on a daily row. -/
def inMonth (y m : Int) (r : DailyRow) : Bool :=
  decide (r.date.year = y) && decide (r.date.month = m)

/-- `_aggregate_daily_for_user`: averages the user's records of the day and
upserts `daily_eeg_records` keyed by `(user_id, date)` (the first matching
row is updated in place, otherwise a new row is added). -/
def upsertDailyRow : List DailyRow → Int → CalDate → Rat → Rat → Rat → List DailyRow
  | [], u, d, f, s, w => [⟨u, d, f, s, w⟩]
  | row :: rest, u, d, f, s, w =>
    if row.user_id = u ∧ row.date = d then
      { row with focus := f, stress := s, wellness := w } :: rest
    else row :: upsertDailyRow rest u d f s w

/-- One `_aggregate_daily_for_user(user_id, target_date)` step: SQL `AVG`
over the user's rows of the date, rounded to 2 decimals; skipped when the
user has no row (then `avg_focus` is SQL NULL). -/
def aggregate_daily_for_user (db : CoreDB) (uid : Int) (d : CalDate) : CoreDB :=
  let rows := db.eeg.filter fun r => decide (r.user_id = uid) && onDate d r
  if rows = [] then db
  else
    { db with
        daily :=
          upsertDailyRow db.daily uid d
            (pyRound2 (qAvg (rows.map fun r => r.focus_label)))
            (pyRound2 (qAvg (rows.map fun r => r.stress_label)))
            (pyRound2 (qAvg (rows.map fun r => r.wellness_label))) }

/-- The backup row written for an `eeg_records` row on a given backup day. -/
def mkBackupRow (today : CalDate) (r : AggEEGRow) : BackupRow :=
  { original_id := r.id
    user_id := r.user_id
    timestamp := r.timestamp.date
    focus_label := r.focus_label
    stress_label := r.stress_label
    wellness_label := r.wellness_label
    backup_date := today }

/-- `_backup_and_clean_eeg_records(target_date)` run on day `today`: copies
every `eeg_records` row of the date (all users) into `eeg_records_backup`
with the timestamp narrowed to date precision and `backup_date = today`,
then deletes the source rows; a no-op when the date has no rows. -/
def backup_and_clean_eeg_records (db : CoreDB) (d today : CalDate) : CoreDB :=
  let toBackup := db.eeg.filter (onDate d)
  if toBackup = [] then db
  else
    { db with
        backup := db.backup ++ toBackup.map (mkBackupRow today)
        eeg := db.eeg.filter fun r => !onDate d r }

/-- The users with any `eeg_records` row on the date (`DISTINCT user_id`). -/
def usersWithEEGData (db : CoreDB) (d : CalDate) : List Int :=
  ((db.eeg.filter (onDate d)).map fun r => r.user_id).dedup

/-- The per-user aggregation loop followed by the backup/cleanup decision of
`process_daily_aggregation`: aggregate every user with data on `target`,
then back up and clean exactly when `target < today`. -/
def runDailyAggregation (db : CoreDB) (target today : CalDate) : CoreDB :=
  let db1 := (usersWithEEGData db target).foldl
    (fun s u => aggregate_daily_for_user s u target) db
  if CalDate.lt target today then backup_and_clean_eeg_records db1 target today
  else db1

/-- `process_daily_aggregation(target_date, use_fallback)` run on day
`today`: when the target date has no rows the run either re-targets to
`today` (fallback enabled and today has rows) or does nothing. -/
def process_daily_aggregation (db : CoreDB) (targetDate today : CalDate)
    (useFallback : Bool) : CoreDB :=
  let dataCount := (db.eeg.filter (onDate targetDate)).length
  if dataCount = 0 then
    if useFallback then
      if (db.eeg.filter (onDate today)).length ≠ 0 then
        runDailyAggregation db today today
      else db
    else db
  else runDailyAggregation db targetDate today

/-- Monthly upsert keyed by `(user_id, year, month)`: the first matching
`monthly_eeg_records` row is updated in place, otherwise a new row is
added. -/
def upsertMonthlyRow : List MonthlyRow → Int → Int → Int → Rat → Rat → Rat → List MonthlyRow
  | [], u, y, m, f, s, w => [⟨u, y, m, f, s, w⟩]
  | row :: rest, u, y, m, f, s, w =>
    if row.user_id = u ∧ row.year = y ∧ row.month = m then
      { row with focus := f, stress := s, wellness := w } :: rest
    else row :: upsertMonthlyRow rest u y m f s w

/-- `_aggregate_monthly_for_user(user_id, year, month)`: SQL `AVG` over the
user's daily rows of the month, rounded to 2 decimals, upserted into
`monthly_eeg_records`; skipped when the user has no daily row there. -/
def aggregate_monthly_for_user (db : CoreDB) (uid : Int) (y m : Int) : CoreDB :=
  let rows := db.daily.filter fun r => decide (r.user_id = uid) && inMonth y m r
  if rows = [] then db
  else
    { db with
        monthly :=
          upsertMonthlyRow db.monthly uid y m
            (pyRound2 (qAvg (rows.map fun r => r.focus)))
            (pyRound2 (qAvg (rows.map fun r => r.stress)))
            (pyRound2 (qAvg (rows.map fun r => r.wellness))) }

/-- `_cleanup_daily_records(year, month)`: deletes every daily row of the
month (a no-op when there is none). -/
def cleanup_daily_records (db : CoreDB) (y m : Int) : CoreDB :=
  let toDelete := db.daily.filter (inMonth y m)
  if toDelete = [] then db
  else { db with daily := db.daily.filter fun r => !inMonth y m r }

/-- The users with any daily row in the month (`DISTINCT user_id`). -/
def usersWithDailyData (db : CoreDB) (y m : Int) : List Int :=
  ((db.daily.filter (inMonth y m)).map fun r => r.user_id).dedup

/-- `process_monthly_aggregation(year, month)`: nothing happens when the
month has no daily rows; otherwise every user with daily rows in the month
is aggregated and the consumed daily rows are deleted. -/
def process_monthly_aggregation (db : CoreDB) (y m : Int) : CoreDB :=
  if (db.daily.filter (inMonth y m)).length = 0 then db
  else
    cleanup_daily_records
      ((usersWithDailyData db y m).foldl
        (fun s u => aggregate_monthly_for_user s u y m) db)
      y m

/-! ### Helper lemmas -/

theorem avgOrZero_perm {l₁ l₂ : List Rat} (h : List.Perm l₁ l₂) :
    avgOrZero l₁ = avgOrZero l₂ := by
  unfold avgOrZero
  have hiff : l₁ = [] ↔ l₂ = [] := by
    rw [← List.length_eq_zero, ← List.length_eq_zero, h.length_eq]
  by_cases h2 : l₂ = []
  · simp [hiff.mpr h2, h2]
  · rw [if_neg (fun e => h2 (hiff.mp e)), if_neg h2, h.sum_eq, h.length_eq]

theorem flatMap_congr_mem {α β : Type} {f g : α → List β} (l : List α)
    (h : ∀ a ∈ l, f a = g a) : l.flatMap f = l.flatMap g := by
  induction l with
  | nil => rfl
  | cons a l ih =>
    rw [List.flatMap_cons, List.flatMap_cons, h a (List.mem_cons_self a l),
      ih fun b hb => h b (List.mem_cons_of_mem a hb)]

theorem flatMap_filterMap_comm {α β : Type} (f : α → Option β) (g : Int → List α)
    (ks : List Int) :
    (ks.flatMap fun k => (g k).filterMap f) = (ks.flatMap g).filterMap f := by
  induction ks with
  | nil => rfl
  | cons k ks ih =>
    rw [List.flatMap_cons, List.flatMap_cons, List.filterMap_append, ih]

theorem filter_key_partition_perm {α : Type} (key : α → Int) (ks : List Int)
    (l : List α) (hnd : ks.Nodup) (hcov : ∀ r ∈ l, key r ∈ ks) :
    List.Perm (ks.flatMap fun k => l.filter fun r => decide (key r = k)) l := by
  induction ks generalizing l with
  | nil =>
    have hl : l = [] := List.eq_nil_iff_forall_not_mem.mpr fun a ha => by
      simpa using hcov a ha
    simp [hl]
  | cons k ks ih =>
    have hk : k ∉ ks := (List.nodup_cons.mp hnd).1
    have hnd' : ks.Nodup := (List.nodup_cons.mp hnd).2
    rw [List.flatMap_cons]
    have hsub : ∀ k2 ∈ ks,
        (l.filter fun r => decide (key r = k2))
          = (l.filter fun r => !decide (key r = k)).filter
              fun r => decide (key r = k2) := by
      intro k2 hk2
      rw [List.filter_filter]
      apply List.filter_congr
      intro r _
      by_cases h : key r = k2
      · have hne : ¬ key r = k := by
          intro e
          exact hk ((h.symm.trans e) ▸ hk2)
        simp [h, hne]
        exact fun e => hk (e ▸ hk2)
      · simp [h]
    rw [flatMap_congr_mem ks hsub]
    have hcov' : ∀ r ∈ l.filter fun r => !decide (key r = k), key r ∈ ks := by
      intro r hr
      have h1 := (List.mem_filter.mp hr).1
      have h2 := (List.mem_filter.mp hr).2
      rcases List.mem_cons.mp (hcov r h1) with he | hm
      · simp [he] at h2
      · exact hm
    refine List.Perm.trans (List.Perm.append_left _ (ih _ hnd' hcov')) ?_
    exact List.filter_append_perm _ l

/-! ### Claim C6 -/

/-- C6 counterexample: when the numeric pipeline of Kernel-B
(`FFTEEGService.process_eeg_records`) raises, the kernel does NOT return a
result for the batch — the exception is re-raised — contradicting the claim
that both kernels emit neutral outputs and still return a result. -/
theorem kernelB_propagates_counterexample :
    ¬ ∃ rs, process_eeg_records (NumericOutcome.exn : NumericOutcome (List FFTProcessedRecord))
        = Except.ok rs := by
  rintro ⟨rs, h⟩
  simp [process_eeg_records] at h

/-- C6 (amended): on a numeric exception Kernel-A (`compute_metrics`) emits
neutral outputs — concentration `0`, stress `0`, wellness `0` (and
relaxation `1`) — and still returns a result for the batch, whereas
Kernel-B (`process_eeg_records`) propagates the exception and fails the
batch; on a successful numeric step Kernel-B returns the batch result. -/
theorem kernel_numeric_exception_behavior :
    compute_metrics NumericOutcome.exn = (0, 1, 0, 0)
      ∧ (∀ rs, process_eeg_records (NumericOutcome.ok rs) = Except.ok rs)
      ∧ process_eeg_records (NumericOutcome.exn : NumericOutcome (List FFTProcessedRecord))
          = Except.error () := by
  refine ⟨?_, fun rs => rfl, rfl⟩
  show (pyRound3 0, pyRound3 (1 - 0), pyRound3 (if (0:Rat) + 0 > 0 then 0 / (0 + 0) else 0),
    pyRound3 0) = (0, 1, 0, 0)
  norm_num [pyRound3, roundHalfToEven]

/-! ### Claim C7 -/

theorem get_label_focus (v : Rat) :
    get_label (some v) "focus" = specFocusStressLabel v := by
  simp +decide [get_label, specFocusStressLabel]

theorem get_label_stress (v : Rat) :
    get_label (some v) "stress" = specFocusStressLabel v := by
  simp +decide [get_label, specFocusStressLabel]

theorem get_label_wellness (v : Rat) :
    get_label (some v) "wellness" = specWellnessLabel v := by
  simp +decide [get_label, specWellnessLabel]

/-- C7: the `PROCESSED_METRICS` message dispatched by `broadcast_metrics` is
built from the LAST record of the batch, and its display labels follow the
fixed thresholds: focus and stress are `High` at `>= 2.5`, `Medium` at
`>= 1.5`, else `Low`; wellness is `Good` at `>= 70`, `Fair` at `>= 40`,
else `Poor`. -/
theorem broadcast_labels_from_latest (uid : String)
    (records : List ProcessedMetricRecord) (latest : ProcessedMetricRecord)
    (f s w : Rat) (hu : uid ≠ "") (hl : records.getLast? = some latest)
    (hf : latest.focus_label = some f) (hs : latest.stress_label = some s)
    (hw : latest.wellness_label = some w) :
    broadcast_metrics uid records =
      some { type := "PROCESSED_METRICS"
             user_id := uid
             timestamp := latest.timestamp
             focus := ⟨some f, specFocusStressLabel f⟩
             stress := ⟨some s, specFocusStressLabel s⟩
             wellness := ⟨some w, specWellnessLabel w⟩ } := by
  have hne : records ≠ [] := by
    rintro rfl
    simp at hl
  unfold broadcast_metrics
  rw [if_neg (by simp [hu, hne]), hl]
  simp only [hf, hs, hw, get_label_focus, get_label_stress, get_label_wellness]

/-- Witness for C7, the spec's concrete scenario: latest record has focus
2.7, stress 1.2, wellness 55, so the subscriber of user 7 sees labels
High / Low / Fair. -/
theorem broadcast_labels_witness :
    broadcast_metrics "7"
        [⟨some 0, some 1, some 1, some 1⟩,
         ⟨some 1, some (27/10), some (12/10), some 55⟩] =
      some ⟨"PROCESSED_METRICS", "7", some 1,
        ⟨some (27/10), "High"⟩, ⟨some (12/10), "Low"⟩, ⟨some 55, "Fair"⟩⟩ := by
  have h := broadcast_labels_from_latest "7"
      [⟨some 0, some 1, some 1, some 1⟩,
       ⟨some 1, some (27/10), some (12/10), some 55⟩]
      ⟨some 1, some (27/10), some (12/10), some 55⟩ (27/10) (12/10) 55
      (by decide) rfl rfl rfl rfl
  rw [h]
  norm_num [specFocusStressLabel, specWellnessLabel]

/-! ### Claim C4 -/

/-- C4 counterexample: a well-signed, unexpired token whose `iss` differs
from the configured issuer and whose `nbf` lies far more than 30 seconds in
the future is nevertheless accepted by `verify_access_token` — the claim
that verification rejects on a foreign `iss` or a future `nbf` is false. -/
theorem verify_ignores_iss_nbf_counterexample :
    ("evil-issuer" : String) ≠ (⟨"secret", "niura-iss", "niura-aud"⟩ : JWTConfig).issuer
      ∧ (5000 : Int) > 100 + 30
      ∧ verify_access_token ⟨"secret", "niura-iss", "niura-aud"⟩
          (signedToken ⟨"secret", "niura-iss", "niura-aud"⟩
            ⟨"evil-issuer", "niura-aud", "7", 0, 5000, 1000⟩) 100
          = VerifyResult.ok ⟨"evil-issuer", "niura-aud", "7", 0, 5000, 1000⟩ := by
  refine ⟨by decide, by decide, by decide⟩

/-- C4 (amended): gateway JWT verification validates the signature, `exp`
and `aud` (and the presence of `sub`), but neither `iss` nor `nbf`: the
rejection outcome is unchanged under arbitrary rewrites of the `iss` and
`nbf` claims; an expired token yields the EXPIRED result exactly when
`exp < now`; an unexpired token with a foreign audience is invalid; a token
whose signature was altered is invalid; and the 30-second skew of the spec
is applied at token creation (`nbf = now - 30`), not at verification. -/
theorem verify_validates_exp_aud_only (cfg : JWTConfig) (c : JWTClaims)
    (now t0 d : Int) (i u : String) (n : Int) :
    isRejected (verify_access_token cfg
        (signedToken cfg { c with iss := i, nbf := n }) now)
      = isRejected (verify_access_token cfg (signedToken cfg c) now)
    ∧ (verify_access_token cfg (signedToken cfg c) now = VerifyResult.expired
        ↔ c.exp < now)
    ∧ (¬ c.exp < now → c.aud ≠ cfg.audience →
        verify_access_token cfg (signedToken cfg c) now = VerifyResult.invalid)
    ∧ (∀ sg, sg ≠ jwtSign cfg.secret c →
        verify_access_token cfg ⟨c, sg⟩ now = VerifyResult.invalid)
    ∧ (create_access_token cfg t0 u d).claims.nbf = t0 - 30 := by
  refine ⟨?_, ?_, ?_, ?_, rfl⟩
  · unfold verify_access_token signedToken
    by_cases h1 : c.exp < now <;> by_cases h2 : c.aud = cfg.audience <;>
      by_cases h3 : c.sub = "" <;>
      simp [h1, h2, h3, isRejected, jwtSign]
  · unfold verify_access_token signedToken
    by_cases h1 : c.exp < now <;> by_cases h2 : c.aud = cfg.audience <;>
      by_cases h3 : c.sub = "" <;>
      simp [h1, h2, h3, jwtSign]
  · intro h1 h2
    unfold verify_access_token signedToken
    simp [h1, h2, jwtSign]
  · intro sg hsg
    unfold verify_access_token
    simp [hsg]

/-- Witness for C4 (amended): concrete instances — an expired token is
EXPIRED, an unexpired wrong-audience token is invalid, and a token with an
altered signature is invalid. -/
theorem verify_validates_exp_aud_only_witness :
    verify_access_token ⟨"k", "is", "aud"⟩
        (signedToken ⟨"k", "is", "aud"⟩ ⟨"is", "aud", "7", 0, 0, 100⟩) 200
      = VerifyResult.expired
    ∧ verify_access_token ⟨"k", "is", "aud"⟩
        (signedToken ⟨"k", "is", "aud"⟩ ⟨"is", "wrong", "7", 0, 0, 100⟩) 50
      = VerifyResult.invalid
    ∧ verify_access_token ⟨"k", "is", "aud"⟩
        ⟨⟨"is", "aud", "7", 0, 0, 100⟩, ("bad", ⟨"is", "aud", "7", 0, 0, 100⟩)⟩ 50
      = VerifyResult.invalid := by
  refine ⟨?_, ?_, ?_⟩
  · exact (verify_validates_exp_aud_only ⟨"k", "is", "aud"⟩
      ⟨"is", "aud", "7", 0, 0, 100⟩ 200 0 0 "i" "u" 0).2.1.mpr (by decide)
  · exact (verify_validates_exp_aud_only ⟨"k", "is", "aud"⟩
      ⟨"is", "wrong", "7", 0, 0, 100⟩ 50 0 0 "i" "u" 0).2.2.1 (by decide) (by decide)
  · exact (verify_validates_exp_aud_only ⟨"k", "is", "aud"⟩
      ⟨"is", "aud", "7", 0, 0, 100⟩ 50 0 0 "i" "u" 0).2.2.2.1
      ("bad", ⟨"is", "aud", "7", 0, 0, 100⟩) (by decide)

/-! ### Claim C8 -/

/-- C8: verifying a token created with subject `u` and expiry `t0 + d`
returns a payload whose `sub` is `u` while the clock is before the expiry,
returns the EXPIRED result after the expiry, and returns invalid when the
signature has been altered. -/
theorem verify_create_roundtrip (cfg : JWTConfig) (t0 d now : Int)
    (u : String) (hu : u ≠ "") :
    (now < t0 + d →
        verify_access_token cfg (create_access_token cfg t0 u d) now
          = VerifyResult.ok (create_access_token cfg t0 u d).claims
        ∧ (create_access_token cfg t0 u d).claims.sub = u)
    ∧ (t0 + d < now →
        verify_access_token cfg (create_access_token cfg t0 u d) now
          = VerifyResult.expired)
    ∧ (∀ sg, sg ≠ (create_access_token cfg t0 u d).sig →
        verify_access_token cfg ⟨(create_access_token cfg t0 u d).claims, sg⟩ now
          = VerifyResult.invalid) := by
  refine ⟨fun hlt => ⟨?_, rfl⟩, fun hgt => ?_, fun sg hsg => ?_⟩
  · unfold verify_access_token create_access_token signedToken
    simp [jwtSign, hu]
    omega
  · unfold verify_access_token create_access_token signedToken
    simp [jwtSign]
    omega
  · unfold verify_access_token create_access_token signedToken at hsg ⊢
    simp [jwtSign] at hsg ⊢
    simp [hsg]

/-- Witness for C8: subject `"7"`, issued at 0 with a 100-second lifetime —
verification succeeds with `sub = "7"` at time 50, is EXPIRED at time 200,
and an altered signature is invalid. -/
theorem verify_create_roundtrip_witness :
    (verify_access_token ⟨"k", "is", "aud"⟩
        (create_access_token ⟨"k", "is", "aud"⟩ 0 "7" 100) 50
      = VerifyResult.ok (create_access_token ⟨"k", "is", "aud"⟩ 0 "7" 100).claims
      ∧ (create_access_token ⟨"k", "is", "aud"⟩ 0 "7" 100).claims.sub = "7")
    ∧ verify_access_token ⟨"k", "is", "aud"⟩
        (create_access_token ⟨"k", "is", "aud"⟩ 0 "7" 100) 200
      = VerifyResult.expired
    ∧ verify_access_token ⟨"k", "is", "aud"⟩
        ⟨(create_access_token ⟨"k", "is", "aud"⟩ 0 "7" 100).claims,
          ("bad", (create_access_token ⟨"k", "is", "aud"⟩ 0 "7" 100).claims)⟩ 50
      = VerifyResult.invalid := by
  refine ⟨(verify_create_roundtrip ⟨"k", "is", "aud"⟩ 0 100 50 "7" (by decide)).1
      (by decide),
    (verify_create_roundtrip ⟨"k", "is", "aud"⟩ 0 100 200 "7" (by decide)).2.1
      (by decide),
    (verify_create_roundtrip ⟨"k", "is", "aud"⟩ 0 100 50 "7" (by decide)).2.2
      ("bad", (create_access_token ⟨"k", "is", "aud"⟩ 0 "7" 100).claims)
      (by decide)⟩

/-! ### Claim C2 -/

theorem CalDate.lt_irrefl (a : CalDate) : ¬ CalDate.lt a a := by
  unfold CalDate.lt
  omega

theorem aggregate_daily_for_user_keeps (db : CoreDB) (u : Int) (d : CalDate) :
    (aggregate_daily_for_user db u d).eeg = db.eeg
      ∧ (aggregate_daily_for_user db u d).backup = db.backup := by
  unfold aggregate_daily_for_user
  by_cases h : db.eeg.filter (fun r => decide (r.user_id = u) && onDate d r) = [] <;>
    simp [h]

theorem foldl_daily_keeps (users : List Int) (db : CoreDB) (d : CalDate) :
    (users.foldl (fun s u => aggregate_daily_for_user s u d) db).eeg = db.eeg
      ∧ (users.foldl (fun s u => aggregate_daily_for_user s u d) db).backup
        = db.backup := by
  induction users generalizing db with
  | nil => exact ⟨rfl, rfl⟩
  | cons u us ih =>
    rw [List.foldl_cons]
    have h1 := aggregate_daily_for_user_keeps db u d
    have h2 := ih (aggregate_daily_for_user db u d)
    exact ⟨h2.1.trans h1.1, h2.2.trans h1.2⟩

theorem runDailyAggregation_today (db : CoreDB) (today : CalDate) :
    (runDailyAggregation db today today).eeg = db.eeg
      ∧ (runDailyAggregation db today today).backup = db.backup := by
  unfold runDailyAggregation
  rw [if_neg (CalDate.lt_irrefl today)]
  exact foldl_daily_keeps _ db today

/-- C2: for a target date strictly before today, a successful
`process_daily_aggregation(d)` leaves no `eeg_records` row on `d`; the
`eeg_records_backup` rows with `backup_date = today` (none existing before
the run) number exactly the prior `eeg_records` rows of `d`; and each
backed-up row copies its source row with the timestamp narrowed to date
precision.  When the target date IS today, no backup row is written and no
`eeg_records` row is deleted. -/
theorem daily_backup_and_cleanup (db : CoreDB) (d today : CalDate) (fb : Bool) :
    (CalDate.lt d today →
      (process_daily_aggregation db d today fb).eeg.filter (onDate d) = []
      ∧ (db.backup.filter (fun b => decide (b.backup_date = today)) = [] →
          ((process_daily_aggregation db d today fb).backup.filter
              fun b => decide (b.backup_date = today)).length
            = (db.eeg.filter (onDate d)).length)
      ∧ ∀ r ∈ db.eeg.filter (onDate d),
          mkBackupRow today r ∈ (process_daily_aggregation db d today fb).backup)
    ∧ (d = today →
        (process_daily_aggregation db d today fb).backup = db.backup
        ∧ (process_daily_aggregation db d today fb).eeg = db.eeg) := by
  by_cases hcnt : (db.eeg.filter (onDate d)).length = 0
  · have hfe : db.eeg.filter (onDate d) = [] := List.length_eq_zero.mp hcnt
    have hkeep : (process_daily_aggregation db d today fb).eeg = db.eeg
        ∧ (process_daily_aggregation db d today fb).backup = db.backup := by
      unfold process_daily_aggregation
      rw [if_pos hcnt]
      by_cases hfb : fb = true
      · rw [if_pos hfb]
        by_cases ht : (db.eeg.filter (onDate today)).length ≠ 0
        · rw [if_pos ht]
          exact runDailyAggregation_today db today
        · rw [if_neg ht]
          exact ⟨rfl, rfl⟩
      · rw [if_neg hfb]
        exact ⟨rfl, rfl⟩
    refine ⟨fun _ => ⟨?_, fun hb => ?_, fun r hr => ?_⟩,
      fun _ => ⟨hkeep.2, hkeep.1⟩⟩
    · rw [hkeep.1, hfe]
    · rw [hkeep.2, hb, hfe]
      rfl
    · rw [hfe] at hr
      simp at hr
  · have hproc : process_daily_aggregation db d today fb
        = runDailyAggregation db d today := by
      unfold process_daily_aggregation
      rw [if_neg hcnt]
    refine ⟨fun hlt => ?_, fun heq => ?_⟩
    · have hbc : process_daily_aggregation db d today fb
          = backup_and_clean_eeg_records
              ((usersWithEEGData db d).foldl
                (fun s u => aggregate_daily_for_user s u d) db) d today := by
        rw [hproc]
        unfold runDailyAggregation
        rw [if_pos hlt]
      have hkeeps := foldl_daily_keeps (usersWithEEGData db d) db d
      set db1 := (usersWithEEGData db d).foldl
        (fun s u => aggregate_daily_for_user s u d) db with hdb1
      have htb : db1.eeg.filter (onDate d) = db.eeg.filter (onDate d) := by
        rw [hkeeps.1]
      have htbne : ¬ db1.eeg.filter (onDate d) = [] := by
        rw [htb]
        intro h
        exact hcnt (by rw [h]; rfl)
      have hres : (process_daily_aggregation db d today fb).eeg
            = db1.eeg.filter (fun r => !onDate d r)
          ∧ (process_daily_aggregation db d today fb).backup
            = db1.backup ++ (db1.eeg.filter (onDate d)).map (mkBackupRow today) := by
        rw [hbc]
        unfold backup_and_clean_eeg_records
        rw [if_neg htbne]
        exact ⟨rfl, rfl⟩
      refine ⟨?_, fun hb => ?_, fun r hr => ?_⟩
      · rw [hres.1, List.filter_filter]
        apply List.filter_eq_nil_iff.mpr
        intro a _
        simp
      · rw [hres.2, List.filter_append, hkeeps.2, hb, List.nil_append]
        have hall : ((db1.eeg.filter (onDate d)).map (mkBackupRow today)).filter
            (fun b => decide (b.backup_date = today))
              = (db1.eeg.filter (onDate d)).map (mkBackupRow today) := by
          apply List.filter_eq_self.mpr
          intro b hbm
          rcases List.mem_map.mp hbm with ⟨r2, _, hr2⟩
          rw [← hr2]
          simp [mkBackupRow]
        rw [hall, List.length_map, htb]
      · rw [hres.2]
        apply List.mem_append_right
        apply List.mem_map_of_mem
        rw [htb]
        exact hr
    · subst heq
      rw [hproc]
      exact ⟨(runDailyAggregation_today db d).2, (runDailyAggregation_today db d).1⟩

/-- Witness for C2, the spec's concrete scenario 3: user 7 has three
records on 2025-03-14 (focus 1, 2, 3); running the daily aggregation on
2025-03-15 leaves zero records for 2025-03-14 and produces three backup
rows dated 2025-03-15. -/
theorem daily_backup_and_cleanup_witness :
    (process_daily_aggregation
        ⟨[⟨1, 7, ⟨⟨2025, 3, 14⟩, 10⟩, 1, 1, 50⟩,
          ⟨2, 7, ⟨⟨2025, 3, 14⟩, 11⟩, 2, 1, 50⟩,
          ⟨3, 7, ⟨⟨2025, 3, 14⟩, 12⟩, 3, 1, 50⟩], [], [], []⟩
        ⟨2025, 3, 14⟩ ⟨2025, 3, 15⟩ true).eeg.filter (onDate ⟨2025, 3, 14⟩) = []
    ∧ ((process_daily_aggregation
        ⟨[⟨1, 7, ⟨⟨2025, 3, 14⟩, 10⟩, 1, 1, 50⟩,
          ⟨2, 7, ⟨⟨2025, 3, 14⟩, 11⟩, 2, 1, 50⟩,
          ⟨3, 7, ⟨⟨2025, 3, 14⟩, 12⟩, 3, 1, 50⟩], [], [], []⟩
        ⟨2025, 3, 14⟩ ⟨2025, 3, 15⟩ true).backup.filter
          (fun b => decide (b.backup_date = ⟨2025, 3, 15⟩))).length = 3 := by
  have h := daily_backup_and_cleanup
    ⟨[⟨1, 7, ⟨⟨2025, 3, 14⟩, 10⟩, 1, 1, 50⟩,
      ⟨2, 7, ⟨⟨2025, 3, 14⟩, 11⟩, 2, 1, 50⟩,
      ⟨3, 7, ⟨⟨2025, 3, 14⟩, 12⟩, 3, 1, 50⟩], [], [], []⟩
    ⟨2025, 3, 14⟩ ⟨2025, 3, 15⟩ true
  have hlt : CalDate.lt ⟨2025, 3, 14⟩ ⟨2025, 3, 15⟩ := by decide
  refine ⟨(h.1 hlt).1, ?_⟩
  rw [(h.1 hlt).2.1 rfl]
  rfl

/-! ### Claim C3 -/

theorem aggregate_monthly_for_user_keeps (db : CoreDB) (u y m : Int) :
    (aggregate_monthly_for_user db u y m).daily = db.daily := by
  unfold aggregate_monthly_for_user
  by_cases h : db.daily.filter (fun r => decide (r.user_id = u) && inMonth y m r) = [] <;>
    simp [h]

theorem upsertMonthlyRow_self (l : List MonthlyRow) (u y m : Int) (f s w : Rat) :
    (⟨u, y, m, f, s, w⟩ : MonthlyRow) ∈ upsertMonthlyRow l u y m f s w := by
  induction l with
  | nil => exact List.mem_singleton.mpr rfl
  | cons hd rest ih =>
    unfold upsertMonthlyRow
    by_cases h : hd.user_id = u ∧ hd.year = y ∧ hd.month = m
    · rw [if_pos h]
      have he : ({ hd with focus := f, stress := s, wellness := w } : MonthlyRow)
          = ⟨u, y, m, f, s, w⟩ := by
        cases hd
        simp only at h
        simp [h.1, h.2.1, h.2.2]
      rw [he]
      exact List.mem_cons_self _ _
    · rw [if_neg h]
      exact List.mem_cons_of_mem _ ih

theorem upsertMonthlyRow_mem_of_ne (l : List MonthlyRow) (v y m : Int)
    (f s w : Rat) (row : MonthlyRow) (hmem : row ∈ l) (hne : row.user_id ≠ v) :
    row ∈ upsertMonthlyRow l v y m f s w := by
  induction l with
  | nil => cases hmem
  | cons hd rest ih =>
    unfold upsertMonthlyRow
    by_cases h : hd.user_id = v ∧ hd.year = y ∧ hd.month = m
    · rw [if_pos h]
      rcases List.mem_cons.mp hmem with he | hm
      · exact absurd (by rw [he]; exact h.1) hne
      · exact List.mem_cons_of_mem _ hm
    · rw [if_neg h]
      rcases List.mem_cons.mp hmem with he | hm
      · rw [he]
        exact List.mem_cons_self _ _
      · exact List.mem_cons_of_mem _ (ih hm)

theorem foldl_monthly_keeps_mem (users : List Int) (db : CoreDB) (y m : Int)
    (row : MonthlyRow) (hmem : row ∈ db.monthly) (hnin : row.user_id ∉ users) :
    row ∈ (users.foldl (fun s v => aggregate_monthly_for_user s v y m) db).monthly := by
  induction users generalizing db with
  | nil => exact hmem
  | cons v vs ih =>
    rw [List.foldl_cons]
    apply ih
    · unfold aggregate_monthly_for_user
      by_cases h : db.daily.filter (fun r => decide (r.user_id = v) && inMonth y m r) = []
      · simpa [h] using hmem
      · simp only [h, if_false, ite_false, if_neg (fun e => h e)]
        exact upsertMonthlyRow_mem_of_ne _ _ _ _ _ _ _ _ hmem
          (fun e => hnin (by rw [e]; exact List.mem_cons_self _ _))
    · exact fun hv => hnin (List.mem_cons_of_mem _ hv)

theorem foldl_monthly_upserts (users : List Int) (db : CoreDB) (y m u : Int)
    (hnd : users.Nodup) (hu : u ∈ users)
    (hne : db.daily.filter (fun r => decide (r.user_id = u) && inMonth y m r) ≠ []) :
    (⟨u, y, m,
        pyRound2 (qAvg ((db.daily.filter fun r =>
          decide (r.user_id = u) && inMonth y m r).map fun r => r.focus)),
        pyRound2 (qAvg ((db.daily.filter fun r =>
          decide (r.user_id = u) && inMonth y m r).map fun r => r.stress)),
        pyRound2 (qAvg ((db.daily.filter fun r =>
          decide (r.user_id = u) && inMonth y m r).map fun r => r.wellness))⟩ : MonthlyRow)
      ∈ (users.foldl (fun s v => aggregate_monthly_for_user s v y m) db).monthly := by
  induction users generalizing db with
  | nil => cases hu
  | cons v vs ih =>
    rw [List.foldl_cons]
    rcases List.mem_cons.mp hu with he | hm
    · subst he
      have h1 : (⟨u, y, m,
          pyRound2 (qAvg ((db.daily.filter fun r =>
            decide (r.user_id = u) && inMonth y m r).map fun r => r.focus)),
          pyRound2 (qAvg ((db.daily.filter fun r =>
            decide (r.user_id = u) && inMonth y m r).map fun r => r.stress)),
          pyRound2 (qAvg ((db.daily.filter fun r =>
            decide (r.user_id = u) && inMonth y m r).map fun r => r.wellness))⟩ : MonthlyRow)
          ∈ (aggregate_monthly_for_user db u y m).monthly := by
        unfold aggregate_monthly_for_user
        simp only [hne, if_false, ite_false, if_neg (fun e => hne e)]
        exact upsertMonthlyRow_self _ _ _ _ _ _ _
      exact foldl_monthly_keeps_mem vs _ y m _ h1 (List.nodup_cons.mp hnd).1
    · have hd : (aggregate_monthly_for_user db v y m).daily = db.daily :=
        aggregate_monthly_for_user_keeps db v y m
      have hrec := ih (aggregate_monthly_for_user db v y m)
        (List.nodup_cons.mp hnd).2 hm (by rw [hd]; exact hne)
      rw [hd] at hrec
      exact hrec

theorem cleanup_daily_records_monthly (db : CoreDB) (y m : Int) :
    (cleanup_daily_records db y m).monthly = db.monthly := by
  unfold cleanup_daily_records
  by_cases h : db.daily.filter (inMonth y m) = [] <;> simp [h]

theorem cleanup_daily_records_clean (db : CoreDB) (y m : Int) :
    (cleanup_daily_records db y m).daily.filter (inMonth y m) = [] := by
  unfold cleanup_daily_records
  by_cases h : db.daily.filter (inMonth y m) = []
  · simp [h]
  · simp only [h, if_false, ite_false, if_neg (fun e => h e)]
    rw [List.filter_filter]
    apply List.filter_eq_nil_iff.mpr
    intro a _
    simp

/-- C3: for every user `u` having daily aggregates in `(year, month)`,
`process_monthly_aggregation(year, month)` leaves a `monthly_eeg_records`
row keyed `(u, year, month)` whose focus, stress and wellness are the
arithmetic means of that user's prior daily rows of the month rounded to 2
decimal places, and afterwards no daily row of that month remains. -/
theorem monthly_aggregation_upsert_cleanup (db : CoreDB) (y m u : Int)
    (hu : u ∈ usersWithDailyData db y m) :
    (⟨u, y, m,
        pyRound2 (qAvg ((db.daily.filter fun r =>
          decide (r.user_id = u) && inMonth y m r).map fun r => r.focus)),
        pyRound2 (qAvg ((db.daily.filter fun r =>
          decide (r.user_id = u) && inMonth y m r).map fun r => r.stress)),
        pyRound2 (qAvg ((db.daily.filter fun r =>
          decide (r.user_id = u) && inMonth y m r).map fun r => r.wellness))⟩ : MonthlyRow)
      ∈ (process_monthly_aggregation db y m).monthly
    ∧ (process_monthly_aggregation db y m).daily.filter (inMonth y m) = [] := by
  have hne0 : db.daily.filter (inMonth y m) ≠ [] := by
    intro h
    unfold usersWithDailyData at hu
    rw [h] at hu
    simp at hu
  have huser : db.daily.filter
      (fun r => decide (r.user_id = u) && inMonth y m r) ≠ [] := by
    unfold usersWithDailyData at hu
    rcases List.mem_map.mp (List.mem_dedup.mp hu) with ⟨r, hr, hru⟩
    intro hfe
    have hrin : r ∈ db.daily.filter
        (fun r => decide (r.user_id = u) && inMonth y m r) := by
      rw [List.mem_filter]
      refine ⟨(List.mem_filter.mp hr).1, ?_⟩
      simp [hru, (List.mem_filter.mp hr).2]
    rw [hfe] at hrin
    cases hrin
  have hproc : process_monthly_aggregation db y m
      = cleanup_daily_records
          ((usersWithDailyData db y m).foldl
            (fun s v => aggregate_monthly_for_user s v y m) db) y m := by
    unfold process_monthly_aggregation
    rw [if_neg (fun h => hne0 (List.length_eq_zero.mp h))]
  constructor
  · rw [hproc, cleanup_daily_records_monthly]
    exact foldl_monthly_upserts _ db y m u (List.nodup_dedup _) hu huser
  · rw [hproc]
    exact cleanup_daily_records_clean _ y m

/-- Witness for C3, the spec's concrete scenario 4 (reduced to three days):
user 7 has daily aggregates in 2025-03 with focus 2, stress 1, wellness 50;
after `process_monthly_aggregation(2025, 3)` a monthly row
`(7, 2025, 3, 2, 1, 50)` exists and no daily row of 2025-03 remains. -/
theorem monthly_aggregation_witness :
    (⟨7, 2025, 3, 2, 1, 50⟩ : MonthlyRow)
      ∈ (process_monthly_aggregation
          ⟨[], [⟨7, ⟨2025, 3, 1⟩, 2, 1, 50⟩, ⟨7, ⟨2025, 3, 2⟩, 2, 1, 50⟩,
                ⟨7, ⟨2025, 3, 3⟩, 2, 1, 50⟩], [], []⟩ 2025 3).monthly
    ∧ (process_monthly_aggregation
        ⟨[], [⟨7, ⟨2025, 3, 1⟩, 2, 1, 50⟩, ⟨7, ⟨2025, 3, 2⟩, 2, 1, 50⟩,
              ⟨7, ⟨2025, 3, 3⟩, 2, 1, 50⟩], [], []⟩ 2025 3).daily.filter
        (inMonth 2025 3) = [] := by
  have h := monthly_aggregation_upsert_cleanup
    ⟨[], [⟨7, ⟨2025, 3, 1⟩, 2, 1, 50⟩, ⟨7, ⟨2025, 3, 2⟩, 2, 1, 50⟩,
          ⟨7, ⟨2025, 3, 3⟩, 2, 1, 50⟩], [], []⟩ 2025 3 7 (by decide)
  have hfil : (((⟨[], [⟨7, ⟨2025, 3, 1⟩, 2, 1, 50⟩, ⟨7, ⟨2025, 3, 2⟩, 2, 1, 50⟩,
        ⟨7, ⟨2025, 3, 3⟩, 2, 1, 50⟩], [], []⟩ : CoreDB)).daily.filter fun r =>
          decide (r.user_id = 7) && inMonth 2025 3 r)
      = [⟨7, ⟨2025, 3, 1⟩, 2, 1, 50⟩, ⟨7, ⟨2025, 3, 2⟩, 2, 1, 50⟩,
         ⟨7, ⟨2025, 3, 3⟩, 2, 1, 50⟩] := by decide
  rw [hfil] at h
  have h2 : pyRound2 (qAvg ([⟨7, ⟨2025, 3, 1⟩, 2, 1, 50⟩, ⟨7, ⟨2025, 3, 2⟩, 2, 1, 50⟩,
      (⟨7, ⟨2025, 3, 3⟩, 2, 1, 50⟩ : DailyRow)].map fun r => r.focus)) = 2 := by
    norm_num [qAvg, pyRound2, roundHalfToEven]
  have h3 : pyRound2 (qAvg ([⟨7, ⟨2025, 3, 1⟩, 2, 1, 50⟩, ⟨7, ⟨2025, 3, 2⟩, 2, 1, 50⟩,
      (⟨7, ⟨2025, 3, 3⟩, 2, 1, 50⟩ : DailyRow)].map fun r => r.stress)) = 1 := by
    norm_num [qAvg, pyRound2, roundHalfToEven]
  have h4 : pyRound2 (qAvg ([⟨7, ⟨2025, 3, 1⟩, 2, 1, 50⟩, ⟨7, ⟨2025, 3, 2⟩, 2, 1, 50⟩,
      (⟨7, ⟨2025, 3, 3⟩, 2, 1, 50⟩ : DailyRow)].map fun r => r.wellness)) = 50 := by
    norm_num [qAvg, pyRound2, roundHalfToEven]
  rw [h2, h3, h4] at h
  exact h

/-! ### Claim C1 -/

theorem flatMap_buckets_perm (records : List EEGRecordRow)
    (f : EEGRecordRow → Option Rat) :
    List.Perm
      ((sortedSecondKeys records).flatMap fun k =>
        (records.filter fun r => decide (r.timestamp.sec = k)).filterMap f)
      (records.filterMap f) := by
  rw [flatMap_filterMap_comm]
  apply List.Perm.filterMap
  have hnd : (sortedSecondKeys records).Nodup :=
    (List.perm_insertionSort _ _).symm.nodup (List.nodup_dedup _)
  have hcov : ∀ r ∈ records, r.timestamp.sec ∈ sortedSecondKeys records := by
    intro r hr
    rw [sortedSecondKeys, List.mem_insertionSort, secondKeys, List.mem_dedup]
    exact List.mem_map_of_mem _ hr
  exact filter_key_partition_perm (fun r => r.timestamp.sec)
    (sortedSecondKeys records) records hnd hcov

theorem allFocusRaw_perm (records : List EEGRecordRow) :
    List.Perm (allFocusRaw records) (records.filterMap fun r => r.focus_label) := by
  unfold allFocusRaw bucketFocus
  exact flatMap_buckets_perm records _

/-- C1: in `track_session`, with `N` the number of distinct seconds having
matching records inside the requested intervals: when `N <= 10` the answer
has exactly `N` focus data points whose timestamps are the real per-second
timestamps (sorted ascending) and `was_aggregated` is false; when `N > 10`
the answer has exactly 10 focus data points and `was_aggregated` is true;
and both the returned and the persisted `avg_focus` equal the unweighted
arithmetic mean of all raw per-sample focus values. -/
theorem track_session_ten_point_policy (db : List EEGRecordRow) (uid : Int)
    (sd : SessionTrackingData) (now : Timestamp) :
    (track_session db uid sd now).focus_data.length
      = (if (secondKeys (collectSessionRecords db uid sd.timestamps)).length ≤ 10
          then (secondKeys (collectSessionRecords db uid sd.timestamps)).length
          else 10)
    ∧ (track_session db uid sd now).was_aggregated
      = decide ((secondKeys (collectSessionRecords db uid sd.timestamps)).length > 10)
    ∧ ((secondKeys (collectSessionRecords db uid sd.timestamps)).length ≤ 10 →
        (track_session db uid sd now).timestamps
          = sortedSecondKeys (collectSessionRecords db uid sd.timestamps))
    ∧ (track_session db uid sd now).avg_focus
      = avgOrZero ((collectSessionRecords db uid sd.timestamps).filterMap
          fun r => r.focus_label)
    ∧ ((collectSessionRecords db uid sd.timestamps).filterMap
          (fun r => r.focus_label) ≠ [] →
        (track_session db uid sd now).avg_focus
          = ((collectSessionRecords db uid sd.timestamps).filterMap
              fun r => r.focus_label).sum
            / (((collectSessionRecords db uid sd.timestamps).filterMap
              fun r => r.focus_label).length : Rat))
    ∧ (track_session db uid sd now).session.focus
      = (track_session db uid sd now).avg_focus := by
  have hfd : (track_session db uid sd now).focus_data
      = (frontendGraphData (collectSessionRecords db uid sd.timestamps)).1 := rfl
  have hts : (track_session db uid sd now).timestamps
      = (frontendGraphData (collectSessionRecords db uid sd.timestamps)).2.2.2 := rfl
  have havg : (track_session db uid sd now).avg_focus
      = avgOrZero (allFocusRaw (collectSessionRecords db uid sd.timestamps)) := rfl
  have hlen : (sortedSecondKeys (collectSessionRecords db uid sd.timestamps)).length
      = (secondKeys (collectSessionRecords db uid sd.timestamps)).length :=
    (List.perm_insertionSort _ _).length_eq
  have havg2 : (track_session db uid sd now).avg_focus
      = avgOrZero ((collectSessionRecords db uid sd.timestamps).filterMap
          fun r => r.focus_label) := by
    rw [havg]
    exact avgOrZero_perm (allFocusRaw_perm _)
  refine ⟨?_, rfl, fun hN => ?_, havg2, fun hne => ?_, rfl⟩
  · rw [hfd]
    unfold frontendGraphData
    by_cases hN : (secondKeys (collectSessionRecords db uid sd.timestamps)).length ≤ 10
    · rw [if_pos (by rw [hlen]; exact hN), if_pos hN]
      simp only [List.length_map]
      exact hlen
    · rw [if_neg (by rw [hlen]; exact hN), if_neg hN]
      simp
  · rw [hts]
    unfold frontendGraphData
    rw [if_pos (by rw [hlen]; exact hN)]
  · rw [havg2, avgOrZero, if_neg hne]

/-- Witness for C1: two records in two distinct seconds inside one interval;
`N = 2 <= 10`, so two data points with the real second timestamps are
returned, `was_aggregated` is false, and `avg_focus` is the raw mean 3/2. -/
theorem track_session_ten_point_policy_witness :
    (track_session
        [⟨1, 7, ⟨0, 0⟩, some 1, some 1, some 10⟩,
         ⟨2, 7, ⟨1, 0⟩, some 2, some 1, some 30⟩] 7
        ⟨"coding", none, [⟨⟨0, 0⟩, some ⟨1, 0⟩⟩]⟩ ⟨5, 0⟩).focus_data.length = 2
    ∧ (track_session
        [⟨1, 7, ⟨0, 0⟩, some 1, some 1, some 10⟩,
         ⟨2, 7, ⟨1, 0⟩, some 2, some 1, some 30⟩] 7
        ⟨"coding", none, [⟨⟨0, 0⟩, some ⟨1, 0⟩⟩]⟩ ⟨5, 0⟩).was_aggregated = false
    ∧ (track_session
        [⟨1, 7, ⟨0, 0⟩, some 1, some 1, some 10⟩,
         ⟨2, 7, ⟨1, 0⟩, some 2, some 1, some 30⟩] 7
        ⟨"coding", none, [⟨⟨0, 0⟩, some ⟨1, 0⟩⟩]⟩ ⟨5, 0⟩).timestamps = [0, 1]
    ∧ (track_session
        [⟨1, 7, ⟨0, 0⟩, some 1, some 1, some 10⟩,
         ⟨2, 7, ⟨1, 0⟩, some 2, some 1, some 30⟩] 7
        ⟨"coding", none, [⟨⟨0, 0⟩, some ⟨1, 0⟩⟩]⟩ ⟨5, 0⟩).avg_focus = 3/2
    ∧ (track_session
        [⟨1, 7, ⟨0, 0⟩, some 1, some 1, some 10⟩,
         ⟨2, 7, ⟨1, 0⟩, some 2, some 1, some 30⟩] 7
        ⟨"coding", none, [⟨⟨0, 0⟩, some ⟨1, 0⟩⟩]⟩ ⟨5, 0⟩).session.focus = 3/2 := by
  have h := track_session_ten_point_policy
    [⟨1, 7, ⟨0, 0⟩, some 1, some 1, some 10⟩,
     ⟨2, 7, ⟨1, 0⟩, some 2, some 1, some 30⟩] 7
    ⟨"coding", none, [⟨⟨0, 0⟩, some ⟨1, 0⟩⟩]⟩ ⟨5, 0⟩
  have hcol : collectSessionRecords
      [⟨1, 7, ⟨0, 0⟩, some 1, some 1, some 10⟩,
       ⟨2, 7, ⟨1, 0⟩, some 2, some 1, some 30⟩] 7 [⟨⟨0, 0⟩, some ⟨1, 0⟩⟩]
      = [⟨1, 7, ⟨0, 0⟩, some 1, some 1, some 10⟩,
         ⟨2, 7, ⟨1, 0⟩, some 2, some 1, some 30⟩] := by decide
  rw [hcol] at h
  have hkeys : secondKeys
      [⟨1, 7, ⟨0, 0⟩, some 1, some 1, some 10⟩,
       ⟨2, 7, ⟨1, 0⟩, some 2, some 1, some 30⟩] = [0, 1] := by decide
  have hsorted : sortedSecondKeys
      [⟨1, 7, ⟨0, 0⟩, some 1, some 1, some 10⟩,
       ⟨2, 7, ⟨1, 0⟩, some 2, some 1, some 30⟩] = [0, 1] := by decide
  have hraw : ([⟨1, 7, ⟨0, 0⟩, some 1, some 1, some 10⟩,
      (⟨2, 7, ⟨1, 0⟩, some 2, some 1, some 30⟩ : EEGRecordRow)].filterMap
        fun r => r.focus_label) = [1, 2] := by decide
  rw [hkeys, hsorted, hraw] at h
  refine ⟨?_, ?_, h.2.2.1 (by norm_num), ?_, ?_⟩
  · rw [h.1]
    norm_num
  · rw [h.2.1]
    decide
  · rw [h.2.2.2.2.1 (by decide)]
    norm_num
  · rw [h.2.2.2.2.2, h.2.2.2.2.1 (by decide)]
    norm_num

/-! ### Claim C10 -/

/-- C10: when no `eeg_records` row falls inside any requested interval,
`track_session` still succeeds: the persisted session has focus, stress and
wellness 0 and the given label; the duration comes from the user input when
given, else from the interval timestamps; and the answer reports zero
records, zero aggregated data points, `was_aggregated = false` and empty
data and timestamp arrays. -/
theorem track_session_no_records (db : List EEGRecordRow) (uid : Int)
    (sd : SessionTrackingData) (now : Timestamp)
    (h : collectSessionRecords db uid sd.timestamps = []) :
    (track_session db uid sd now).session.focus = 0
    ∧ (track_session db uid sd now).session.stress = 0
    ∧ (track_session db uid sd now).session.wellness = 0
    ∧ (track_session db uid sd now).session.label = sd.label
    ∧ (∀ d, sd.duration = some d →
        (track_session db uid sd now).duration_seconds = pyInt d)
    ∧ (sd.duration = none →
        (track_session db uid sd now).duration_seconds
          = pyInt ((sd.timestamps.filterMap fun iv => iv.stop.map fun e =>
              ((e.sec - iv.start.sec : Int) : Rat) +
                (((e.micro : Int) - (iv.start.micro : Int) : Int) : Rat) / 1000000).sum))
    ∧ (track_session db uid sd now).eeg_records_count = 0
    ∧ (track_session db uid sd now).was_aggregated = false
    ∧ (track_session db uid sd now).aggregated_data_points = 0
    ∧ (track_session db uid sd now).focus_data = []
    ∧ (track_session db uid sd now).stress_data = []
    ∧ (track_session db uid sd now).wellness_data = []
    ∧ (track_session db uid sd now).timestamps = [] := by
  refine ⟨?_, ?_, ?_, rfl, fun d hd => ?_, fun hd => ?_, ?_, ?_, ?_, ?_, ?_, ?_, ?_⟩
  · simp [track_session, h, allFocusRaw, sortedSecondKeys, secondKeys, avgOrZero]
  · simp [track_session, h, allStressRaw, sortedSecondKeys, secondKeys, avgOrZero]
  · simp [track_session, h, allWellnessRaw, sortedSecondKeys, secondKeys, avgOrZero]
  · simp [track_session, hd]
  · simp [track_session, hd]
  · simp [track_session, h]
  · simp [track_session, h, secondKeys]
  · simp [track_session, h, frontendGraphData, sortedSecondKeys, secondKeys]
  · simp [track_session, h, frontendGraphData, sortedSecondKeys, secondKeys]
  · simp [track_session, h, frontendGraphData, sortedSecondKeys, secondKeys]
  · simp [track_session, h, frontendGraphData, sortedSecondKeys, secondKeys]
  · simp [track_session, h, frontendGraphData, sortedSecondKeys, secondKeys]

/-- Witness for C10: an empty record table with one 10-second interval. -/
theorem track_session_no_records_witness :
    (track_session [] 7 ⟨"rest", none, [⟨⟨0, 0⟩, some ⟨10, 0⟩⟩]⟩ ⟨0, 0⟩).session.focus = 0
    ∧ (track_session [] 7 ⟨"rest", none, [⟨⟨0, 0⟩, some ⟨10, 0⟩⟩]⟩ ⟨0, 0⟩).session.label = "rest"
    ∧ (track_session [] 7 ⟨"rest", none, [⟨⟨0, 0⟩, some ⟨10, 0⟩⟩]⟩ ⟨0, 0⟩).duration_seconds = 10
    ∧ (track_session [] 7 ⟨"rest", none, [⟨⟨0, 0⟩, some ⟨10, 0⟩⟩]⟩ ⟨0, 0⟩).eeg_records_count = 0
    ∧ (track_session [] 7 ⟨"rest", none, [⟨⟨0, 0⟩, some ⟨10, 0⟩⟩]⟩ ⟨0, 0⟩).was_aggregated = false
    ∧ (track_session [] 7 ⟨"rest", none, [⟨⟨0, 0⟩, some ⟨10, 0⟩⟩]⟩ ⟨0, 0⟩).focus_data = []
    ∧ (track_session [] 7 ⟨"rest", none, [⟨⟨0, 0⟩, some ⟨10, 0⟩⟩]⟩ ⟨0, 0⟩).timestamps = [] := by
  have h := track_session_no_records [] 7 ⟨"rest", none, [⟨⟨0, 0⟩, some ⟨10, 0⟩⟩]⟩ ⟨0, 0⟩
    (by decide)
  refine ⟨h.1, h.2.2.2.1, ?_, h.2.2.2.2.2.2.1, h.2.2.2.2.2.2.2.1,
    h.2.2.2.2.2.2.2.2.2.1, h.2.2.2.2.2.2.2.2.2.2.2.2⟩
  rw [h.2.2.2.2.2.1 rfl]
  have hsum : (List.filterMap (fun iv => Option.map (fun e =>
      ((e.sec - iv.start.sec : Int) : Rat) +
        (((e.micro : Int) - (iv.start.micro : Int) : Int) : Rat) / 1000000) iv.stop)
      [(⟨⟨0, 0⟩, some ⟨10, 0⟩⟩ : SessionInterval)]).sum = 10 := by
    norm_num [List.filterMap_cons]
  rw [hsum]
  norm_num [pyInt]

/-! ### Claim C5 -/

/-- C5 is a unit slip in the code: `track_session` stores the session
duration in SECONDS, but `get_session_details` widens the record window to
`session.date + timedelta(minutes=duration)`.  For a session of 120 seconds
a record one hour after the session start — outside
`[session.date, session.date + 120 s]` — is selected and counted. -/
theorem session_details_minutes_bug :
    ¬ Timestamp.leP (⟨3600, 0⟩ : Timestamp) (addSeconds ⟨0, 0⟩ 120)
    ∧ sessionDetailsRecords [⟨1, 7, ⟨3600, 0⟩, some 1, some 1, some 1⟩] 7
        ⟨7, ⟨0, 0⟩, 120, "coding", 1, 1, 1⟩
      = [⟨1, 7, ⟨3600, 0⟩, some 1, some 1, some 1⟩]
    ∧ (get_session_details [⟨1, 7, ⟨3600, 0⟩, some 1, some 1, some 1⟩] 7
        ⟨7, ⟨0, 0⟩, 120, "coding", 1, 1, 1⟩).eeg_records_count = 1 := by
  refine ⟨by decide, by decide, by decide⟩

/-! ### Claim C9 -/

/-- C9 fails on the code: when the best consecutive above-average range ends
at hour 23, `get_best_focus_time` formats the end hour from
`strptime(str(23 + 1), "%H")`, which raises `ValueError` — here a user whose
only above-average hour is 23 makes the endpoint raise instead of returning
the formatted range. -/
theorem best_focus_time_hour23_bug :
    get_best_focus_time [2] [(22, 1), (23, 2)] = BestFocusResult.valueError := by
  have hgood : ([((22 : Int), (1 : Rat)), (23, 2)].filter fun p =>
      decide (qAvg ([((22 : Int), (1 : Rat)), (23, 2)].map fun p => p.2) < p.2))
      = [(23, 2)] := by
    norm_num [qAvg, List.filter]
  unfold get_best_focus_time
  rw [if_neg (by decide), if_neg (by decide)]
  simp only [hgood]
  norm_num [coalesceHours, coalesceHoursAux, bestRange, strptimeHour12]
